import Mathlib

/-!
# Verification of the `sm` calculator (`src/calculator.py`)

Shallow embedding of the calculator's core: the operation table entries
`div` and `mod`, and the interactive buffer engine of `interactive_prompt`
(the per-line token dispatch, lines 215-315 of `calculator.py`).

Modelling conventions:
* Python floats are modelled as exact rationals (`ℚ`); float arithmetic is
  modelled as exact rational arithmetic.  The scientific functions
  (`math.sqrt` etc.) are modelled over the reals through an oracle record
  `SciOps`, instantiated with the real-valued semantics in `realSci`.
* `str(x)` for a float `x` is modelled by `pyStr`, which prints the exact
  decimal expansion (sign, integer part, `.`, fractional digits with at
  least one digit, as Python does for floats in the positional range).
* `round(x, 8)` is modelled by `round8Q` (round half to even on the scaled
  value, Python's rounding rule).
* Python exceptions that the source catches are modelled with `Option`:
  `none` is a raised exception, absorbed by the caller exactly where the
  source has `try/except`.
-/

namespace Calculator

/-- ASCII digit test, used both for `str.isdigit` and by the lexer. -/
def isAsciiDigit (c : Char) : Bool := 48 ≤ c.toNat && c.toNat ≤ 57

/-- Model of Python `str.isdigit()` (restricted to ASCII digits, the only
digits the calculator's tokens contain): nonempty and all digits. -/
def pyIsdigit (s : String) : Prop := s.data ≠ [] ∧ s.data.all isAsciiDigit = true

instance (s : String) : Decidable (pyIsdigit s) :=
  inferInstanceAs (Decidable (s.data ≠ [] ∧ s.data.all isAsciiDigit = true))

/-- Model of Python `str.lower()` (ASCII case folding). -/
def pyLower (s : String) : String := ⟨s.data.map Char.toLower⟩

/-- Model of Python `c in s` for a single character. -/
def strContains (s : String) (c : Char) : Prop := c ∈ s.data

instance (s : String) (c : Char) : Decidable (strContains s c) :=
  inferInstanceAs (Decidable (c ∈ s.data))

/-- The character written for decimal digit `d % 10`. -/
def digitChar (d : ℕ) : Char :=
  (['0', '1', '2', '3', '4', '5', '6', '7', '8', '9']).getD (d % 10) '0'

/-- Decimal digits of `n`, most significant first (empty for `0`).
Fuel-based so that it reduces in the kernel; the first argument is fuel. -/
def natDigsAux : ℕ → ℕ → List Char
  | 0, _ => []
  | fuel + 1, n => if n = 0 then [] else natDigsAux fuel (n / 10) ++ [digitChar (n % 10)]

/-- Decimal string of a natural number, as Python prints a nonnegative int. -/
def natStr (n : ℕ) : String := if n = 0 then "0" else ⟨natDigsAux (n + 1) n⟩

/-- Decimal string of an integer, as Python `str` prints an int. -/
def intStr (i : ℤ) : String := if i < 0 then "-" ++ natStr i.natAbs else natStr i.natAbs

/-- Fractional digits of `q` (expects `0 ≤ q < 1`), fuel-bounded: the digits
of the terminating decimal expansion, `[]` once the remainder is zero. -/
def fracDigs : ℕ → ℚ → List Char
  | 0, _ => []
  | fuel + 1, q =>
    if q = 0 then []
    else digitChar (Int.toNat ⌊q * 10⌋) :: fracDigs fuel (Int.fract (q * 10))

/-- Model of Python `str` on a float value: sign, integer part, `.`, and the
fractional digits (at least one, so whole numbers print as `n.0`).  Faithful
for values whose decimal expansion terminates within 20 fractional digits
and which Python prints in positional (non-exponent) notation. -/
def pyStr (q : ℚ) : String :=
  let a := |q|
  let ds := fracDigs 20 (Int.fract a)
  (if q < 0 then "-" else "") ++ natStr (Int.toNat ⌊a⌋) ++ "." ++
    (if ds.isEmpty then "0" else ⟨ds⟩)

/-- Round half to even to an integer (Python's `round` rule for `round(x)`). -/
def rheQ (x : ℚ) : ℤ :=
  if Int.fract x < 1 / 2 then ⌊x⌋
  else if 1 / 2 < Int.fract x then ⌊x⌋ + 1
  else if ⌊x⌋ % 2 = 0 then ⌊x⌋ else ⌊x⌋ + 1

/-- Model of Python `round(x, 8)`: round to the nearest multiple of `1e-8`,
ties to even. -/
def round8Q (q : ℚ) : ℚ := (rheQ (q * 10 ^ 8) : ℚ) / 10 ^ 8

/-- `div` from `calculator.py` (lines 100-103): raises `ZeroDivisionError`
(modelled `none`) when the divisor is zero, otherwise true division. -/
def div (a b : ℚ) : Option ℚ := if b = 0 then none else some (a / b)

/-- `mod` from `calculator.py` (lines 110-113): raises `ZeroDivisionError`
(modelled `none`) when the divisor is zero, otherwise Python's `%` on reals,
which computes `a - b * ⌊a / b⌋`. -/
def mod (a b : ℚ) : Option ℚ := if b = 0 then none else some (a - b * ⌊a / b⌋)

/-! ## The expression evaluator

`eval(display.replace('×', '*').replace('÷', '/'))` is modelled by a lexer
and a recursive-descent parser for the arithmetic fragment the buffer can
contain: numeric literals, `+ - * /`, parentheses, unary sign, standard
precedence, left associativity.  Division by zero and every syntax error
(including Python 3's rejection of integer literals with leading zeros)
yield `none`, the model of a raised exception. -/

/-- Lexical tokens of the evaluated expression string. -/
inductive Tok where
  | num (q : ℚ)
  | plus
  | minus
  | star
  | slash
  | lparen
  | rparen
deriving DecidableEq, Repr

/-- Numeric value of a list of decimal digit characters. -/
def digitsVal (ds : List Char) : ℕ := ds.foldl (fun a c => 10 * a + (c.toNat - 48)) 0

/-- Value of a numeric literal with integer-part and fraction-part digits. -/
def numVal (ip fp : List Char) : ℚ :=
  (digitsVal ip : ℚ) + (digitsVal fp : ℚ) / 10 ^ fp.length

/-- The lexer (fuel-based; fuel bounds the number of characters consumed).
Spaces separate tokens; a numeric literal is `digits`, `digits.digits`,
`digits.` or `.digits`; an integer literal other than `0` must not start
with `0` (Python 3 syntax).  Any other character is a syntax error. -/
def lexChars : ℕ → List Char → Option (List Tok)
  | 0, _ => none
  | _ + 1, [] => some []
  | fuel + 1, c :: cs =>
    if c = ' ' then lexChars fuel cs
    else if c = '+' then (lexChars fuel cs).map (Tok.plus :: ·)
    else if c = '-' then (lexChars fuel cs).map (Tok.minus :: ·)
    else if c = '*' then (lexChars fuel cs).map (Tok.star :: ·)
    else if c = '/' then (lexChars fuel cs).map (Tok.slash :: ·)
    else if c = '(' then (lexChars fuel cs).map (Tok.lparen :: ·)
    else if c = ')' then (lexChars fuel cs).map (Tok.rparen :: ·)
    else if isAsciiDigit c = true ∨ c = '.' then
      if ((c :: cs).dropWhile isAsciiDigit).headD ' ' = '.' then
        if ((c :: cs).takeWhile isAsciiDigit).length = 0
            ∧ ((((c :: cs).dropWhile isAsciiDigit).tail).takeWhile isAsciiDigit).length = 0
        then none
        else
          (lexChars fuel ((((c :: cs).dropWhile isAsciiDigit).tail).dropWhile isAsciiDigit)).map
            (Tok.num (numVal ((c :: cs).takeWhile isAsciiDigit)
              ((((c :: cs).dropWhile isAsciiDigit).tail).takeWhile isAsciiDigit)) :: ·)
      else
        if 1 < ((c :: cs).takeWhile isAsciiDigit).length
            ∧ ((c :: cs).takeWhile isAsciiDigit).headD '0' = '0'
        then none
        else (lexChars fuel ((c :: cs).dropWhile isAsciiDigit)).map
          (Tok.num (digitsVal ((c :: cs).takeWhile isAsciiDigit) : ℚ) :: ·)
    else none

/-- Lex a whole string. -/
def lexStr (s : String) : Option (List Tok) := lexChars (s.data.length + 1) s.data

mutual

/-- `expr := term (('+' | '-') term)*`, returning value and remaining input. -/
def pExpr : ℕ → List Tok → Option (ℚ × List Tok)
  | 0, _ => none
  | fuel + 1, ts =>
    match pTerm fuel ts with
    | none => none
    | some (v, r) => pExprRest fuel v r

/-- Left-associative loop over `+` and `-`. -/
def pExprRest : ℕ → ℚ → List Tok → Option (ℚ × List Tok)
  | 0, _, _ => none
  | fuel + 1, v, Tok.plus :: r =>
    match pTerm fuel r with
    | none => none
    | some (w, r2) => pExprRest fuel (v + w) r2
  | fuel + 1, v, Tok.minus :: r =>
    match pTerm fuel r with
    | none => none
    | some (w, r2) => pExprRest fuel (v - w) r2
  | _ + 1, v, ts => some (v, ts)

/-- `term := factor (('*' | '/') factor)*`; division by zero is `none`. -/
def pTerm : ℕ → List Tok → Option (ℚ × List Tok)
  | 0, _ => none
  | fuel + 1, ts =>
    match pFactor fuel ts with
    | none => none
    | some (v, r) => pTermRest fuel v r

/-- Left-associative loop over `*` and `/`. -/
def pTermRest : ℕ → ℚ → List Tok → Option (ℚ × List Tok)
  | 0, _, _ => none
  | fuel + 1, v, Tok.star :: r =>
    match pFactor fuel r with
    | none => none
    | some (w, r2) => pTermRest fuel (v * w) r2
  | fuel + 1, v, Tok.slash :: r =>
    match pFactor fuel r with
    | none => none
    | some (w, r2) => if w = 0 then none else pTermRest fuel (v / w) r2
  | _ + 1, v, ts => some (v, ts)

/-- `factor := ('+' | '-') factor | number | '(' expr ')'`. -/
def pFactor : ℕ → List Tok → Option (ℚ × List Tok)
  | 0, _ => none
  | fuel + 1, Tok.minus :: r => (pFactor fuel r).map (fun p => (-p.1, p.2))
  | fuel + 1, Tok.plus :: r => pFactor fuel r
  | _ + 1, Tok.num q :: r => some (q, r)
  | fuel + 1, Tok.lparen :: r =>
    (match pExpr fuel r with
     | some (v, Tok.rparen :: r3) => some (v, r3)
     | _ => none)
  | _ + 1, _ => none

end

/-- Evaluate a token list: a full parse of the whole input, or `none`. -/
def evalToks (ts : List Tok) : Option ℚ :=
  match pExpr (3 * ts.length + 3) ts with
  | some (v, []) => some v
  | _ => none

/-- Model of Python `eval` on the expression strings the buffer can hold. -/
def evalExpr (s : String) : Option ℚ :=
  match lexStr s with
  | none => none
  | some ts => evalToks ts

/-- The character map applied before evaluation:
`display.replace('×', '*').replace('÷', '/')` (line 285 and friends). -/
def canonChar (c : Char) : Char := if c = '×' then '*' else if c = '÷' then '/' else c

/-- `replace` over the whole string. -/
def canon (s : String) : String := ⟨s.data.map canonChar⟩

/-- Evaluate the display buffer exactly as the source does:
canonicalize the glyphs, then `eval`. -/
def evalBuffer (d : String) : Option ℚ := evalExpr (canon d)

/-! ## The interactive buffer engine

State and per-line token dispatch of `interactive_prompt` (lines 177-318):
the display string and the history list, updated by one input line.  The
out-of-engine meta commands handled by the loop (`exit`/`quit`, `clear`/`ac`,
`help`, empty input) are included as the loop handles them: none of them
touches the display except `clear`/`ac`, which resets it to `"0"`. -/

/-- Engine state: the display buffer and the result history. -/
structure CalcState where
  display : String
  history : List String
deriving DecidableEq, Repr

/-- The scientific functions, abstracted: each field models
`round(math.<fn>(val), 8)` as an exact rational, `none` when the Python
call raises (domain error).  `realSci` instantiates them over `ℝ`. -/
structure SciOps where
  sinQ : ℚ → Option ℚ
  cosQ : ℚ → Option ℚ
  tanQ : ℚ → Option ℚ
  logQ : ℚ → Option ℚ
  lnQ : ℚ → Option ℚ
  sqrtQ : ℚ → Option ℚ

/-- A scientific-function branch (e.g. lines 264-270 for `sqrt`): evaluate
the buffer, feed the value to the function, display the rounded result;
any failure becomes the display `"Error"`. -/
def applyFn (f : ℚ → Option ℚ) (s : CalcState) : CalcState :=
  match evalBuffer s.display with
  | some v =>
    match f v with
    | some r => { s with display := pyStr r }
    | none => { s with display := "Error" }
  | none => { s with display := "Error" }

/-- The `x²`/`x³` branches (lines 302-315): evaluate, raise to the power,
round to 8 digits, display; failure becomes `"Error"`. -/
def applyPow (k : ℕ) (s : CalcState) : CalcState :=
  match evalBuffer s.display with
  | some v => { s with display := pyStr (round8Q (v ^ k)) }
  | none => { s with display := "Error" }

/-- The `%` branch (lines 275-280): evaluate, divide by 100, display with
`str` directly (note: no rounding here in the source); failure becomes
`"Error"`. -/
def applyPct (s : CalcState) : CalcState :=
  match evalBuffer s.display with
  | some v => { s with display := pyStr (v / 100) }
  | none => { s with display := "Error" }

/-- Model of `str(round(result, 8))` versus `str(int(result))` in the `=`
branch: an integer-valued result prints with no decimal point (both the
`int` results of pure-integer expressions and the `float.is_integer`
normalization land there); otherwise the result is rounded to 8 decimal
places and printed as a float. -/
def fmtEq (q : ℚ) : String := if q.den = 1 then intStr q.num else pyStr (round8Q q)

/-- The `=` branch (lines 281-294): evaluate; on success display the
formatted result and append it to history; on failure display `"Error"`. -/
def applyEq (s : CalcState) : CalcState :=
  match evalBuffer s.display with
  | some q => { display := fmtEq q, history := s.history ++ [fmtEq q] }
  | none => { s with display := "Error" }

/-- `str(math.pi)`: the decimal expansion Python prints for the float π. -/
def piStr : String := "3.141592653589793"

/-- One input line applied to the engine state: the `if`/`elif` dispatch of
`interactive_prompt`, in source order.  An unrecognized command falls
through every branch and leaves the state unchanged. -/
def applyCmd (sci : SciOps) (cmd : String) (s : CalcState) : CalcState :=
  if cmd = "" then s
  else if pyLower cmd = "exit" ∨ pyLower cmd = "quit" then s
  else if pyLower cmd = "clear" ∨ pyLower cmd = "ac" then { s with display := "0" }
  else if pyLower cmd = "help" then s
  else if pyIsdigit cmd ∨ (cmd = "." ∧ ¬ strContains s.display '.') then
    (if s.display = "0" then { s with display := cmd }
     else { s with display := s.display ++ cmd })
  else if cmd = "+" ∨ cmd = "-" ∨ cmd = "*" ∨ cmd = "x" ∨ cmd = "×" ∨ cmd = "/" ∨ cmd = "÷" then
    (if s.display ≠ "0" then { s with display := s.display ++ " " ++ cmd ++ " " } else s)
  else if pyLower cmd = "sin" then applyFn sci.sinQ s
  else if pyLower cmd = "cos" then applyFn sci.cosQ s
  else if pyLower cmd = "tan" then applyFn sci.tanQ s
  else if pyLower cmd = "log" then applyFn sci.logQ s
  else if pyLower cmd = "ln" then applyFn sci.lnQ s
  else if pyLower cmd = "sqrt" ∨ cmd = "√" then applyFn sci.sqrtQ s
  else if cmd = "π" then { s with display := piStr }
  else if pyLower cmd = "del" then
    { s with display := if 1 < s.display.data.length then ⟨s.display.data.dropLast⟩ else "0" }
  else if cmd = "%" then applyPct s
  else if cmd = "=" then applyEq s
  else if cmd = "(" then
    (if s.display = "0" then { s with display := "(" }
     else { s with display := s.display ++ "(" })
  else if cmd = ")" then { s with display := s.display ++ ")" }
  else if pyLower cmd = "x²" ∨ pyLower cmd = "x^2" then applyPow 2 s
  else if pyLower cmd = "x³" ∨ pyLower cmd = "x^3" then applyPow 3 s
  else s

/-- The initial engine state: display `"0"`, empty history. -/
def initState : CalcState := ⟨"0", []⟩

/-- A trivial oracle for the closed computations that never reach a
scientific-function branch. -/
def noSci : SciOps :=
  ⟨fun _ => none, fun _ => none, fun _ => none, fun _ => none, fun _ => none, fun _ => none⟩

/-- Round half to even over the reals (Python's `round` rule). -/
noncomputable def rheR (x : ℝ) : ℤ :=
  if Int.fract x < 1 / 2 then ⌊x⌋
  else if 1 / 2 < Int.fract x then ⌊x⌋ + 1
  else if ⌊x⌋ % 2 = 0 then ⌊x⌋ else ⌊x⌋ + 1

/-- Model of Python `round(x, 8)` over the reals. -/
noncomputable def round8R (x : ℝ) : ℚ := (rheR (x * 10 ^ 8) : ℚ) / 10 ^ 8

/-- The intended real-valued semantics of the scientific branches:
trig functions take the value in degrees (`math.radians` first), `log` is
base 10, `ln` natural; `log`, `ln` and `sqrt` raise on values outside their
domain, and every result is rounded to 8 decimal places. -/
noncomputable def realSci : SciOps where
  sinQ v := some (round8R (Real.sin (v * Real.pi / 180)))
  cosQ v := some (round8R (Real.cos (v * Real.pi / 180)))
  tanQ v := some (round8R (Real.tan (v * Real.pi / 180)))
  logQ v := if v ≤ 0 then none else some (round8R (Real.logb 10 v))
  lnQ v := if v ≤ 0 then none else some (round8R (Real.log v))
  sqrtQ v := if v < 0 then none else some (round8R (Real.sqrt v))

/-! ## Helper lemmas -/

theorem str_ne_empty {s : String} (h : s.data ≠ []) : s ≠ "" := by
  intro he
  subst he
  exact h rfl

theorem natDigsAux_ne_nil (fuel n : ℕ) (hn : n ≠ 0) (hf : fuel ≠ 0) :
    natDigsAux fuel n ≠ [] := by
  cases fuel with
  | zero => exact absurd rfl hf
  | succ f => simp [natDigsAux, hn]

theorem natStr_ne_empty (n : ℕ) : natStr n ≠ "" := by
  unfold natStr
  split
  · decide
  · next hn =>
    intro h
    exact natDigsAux_ne_nil (n + 1) n hn (by omega) (congrArg String.data h)

theorem intStr_ne_empty (i : ℤ) : intStr i ≠ "" := by
  unfold intStr
  split
  · apply str_ne_empty
    rw [String.data_append]
    simp +decide
  · exact natStr_ne_empty _

theorem pyStr_ne_empty (q : ℚ) : pyStr q ≠ "" := by
  unfold pyStr
  apply str_ne_empty
  simp only [String.data_append]
  simp +decide [List.append_eq_nil]

theorem fmtEq_ne_empty (q : ℚ) : fmtEq q ≠ "" := by
  unfold fmtEq
  split
  · exact intStr_ne_empty _
  · exact pyStr_ne_empty _

theorem errorStr_ne_empty : ("Error" : String) ≠ "" := by decide

theorem applyFn_display_ne_empty (f : ℚ → Option ℚ) (s : CalcState) :
    (applyFn f s).display ≠ "" := by
  unfold applyFn
  split
  · split
    · exact pyStr_ne_empty _
    · exact errorStr_ne_empty
  · exact errorStr_ne_empty

theorem applyPow_display_ne_empty (k : ℕ) (s : CalcState) :
    (applyPow k s).display ≠ "" := by
  unfold applyPow
  split
  · exact pyStr_ne_empty _
  · exact errorStr_ne_empty

theorem applyPct_display_ne_empty (s : CalcState) : (applyPct s).display ≠ "" := by
  unfold applyPct
  split
  · exact pyStr_ne_empty _
  · exact errorStr_ne_empty

theorem applyEq_display_ne_empty (s : CalcState) : (applyEq s).display ≠ "" := by
  unfold applyEq
  split
  · exact fmtEq_ne_empty _
  · exact errorStr_ne_empty

theorem mod_eq_mul_fract {a b : ℚ} (hb : b ≠ 0) :
    a - b * ⌊a / b⌋ = b * Int.fract (a / b) := by
  rw [Int.fract, mul_sub, mul_div_cancel₀ a hb]

theorem data_ne_nil_of_ne_empty {s : String} (h : s ≠ "") : s.data ≠ [] := by
  cases s with
  | mk l =>
    intro hd
    have hl : l = [] := hd
    subst hl
    exact h rfl

theorem append_ne_empty_right {s t : String} (h : t ≠ "") : s ++ t ≠ "" := by
  apply str_ne_empty
  rw [String.data_append]
  intro hc
  exact data_ne_nil_of_ne_empty h (List.append_eq_nil.mp hc).2

theorem digitChar_ne_dot (d : ℕ) : digitChar d ≠ '.' := by
  unfold digitChar
  have hlt : d % 10 < 10 := Nat.mod_lt _ (by omega)
  set k := d % 10 with hk
  interval_cases k <;> decide

theorem natDigsAux_chars : ∀ (fuel n : ℕ), ∀ c ∈ natDigsAux fuel n, ∃ d, c = digitChar d := by
  intro fuel
  induction fuel with
  | zero => intro n c hc; simp [natDigsAux] at hc
  | succ f ih =>
    intro n c hc
    unfold natDigsAux at hc
    split at hc
    · simp at hc
    · rcases List.mem_append.mp hc with h1 | h1
      · exact ih _ _ h1
      · exact ⟨n % 10, (List.mem_singleton.mp h1)⟩

theorem natStr_no_dot (n : ℕ) : '.' ∉ (natStr n).data := by
  unfold natStr
  split
  · decide
  · intro hc
    obtain ⟨d, hd⟩ := natDigsAux_chars (n + 1) n '.' hc
    exact digitChar_ne_dot d hd.symm

theorem intStr_no_dot (i : ℤ) : '.' ∉ (intStr i).data := by
  unfold intStr
  split
  · rw [String.data_append]
    intro hc
    rcases List.mem_append.mp hc with h1 | h1
    · exact absurd h1 (by decide)
    · exact natStr_no_dot _ h1
  · exact natStr_no_dot _

/-- Dispatch fact: each of the seven operator tokens reaches the
operator branch. -/
theorem applyCmd_op (sci : SciOps) (cmd : String) (s : CalcState)
    (h : cmd = "+" ∨ cmd = "-" ∨ cmd = "*" ∨ cmd = "x" ∨ cmd = "×" ∨ cmd = "/" ∨ cmd = "÷") :
    applyCmd sci cmd s =
      if s.display ≠ "0" then { s with display := s.display ++ " " ++ cmd ++ " " } else s := by
  rcases h with rfl | rfl | rfl | rfl | rfl | rfl | rfl <;> rfl

/-! ## Claims -/

/-- C4 counterexample: the claim that `mod a b` follows the dividend's sign
is false at `a = -7`, `b = 3`: the code returns `2`, which is positive
while the dividend is negative.  (Stated as the negation of the sign part
of the claim.) -/
theorem C4_counterexample :
    ¬ (∀ a b : ℚ, b ≠ 0 → ∀ r, mod a b = some r → r = 0 ∨ (0 < r ↔ 0 < a)) := by
  intro h
  have h2 := h (-7) 3 (by norm_num) 2 (by with_unfolding_all decide)
  rcases h2 with h2 | h2
  · exact absurd h2 (by norm_num)
  · have h3 : (0 : ℚ) < -7 := h2.mp (by norm_num)
    norm_num at h3

/-- C4 (amended): `div a b` fails exactly when `b = 0` and otherwise
returns `a / b`; `mod a b` fails exactly when `b = 0` and otherwise
returns `a - b * ⌊a / b⌋`, whose sign follows the divisor (Python's `%`
convention): the result lies in `[0, b)` for `b > 0` and in `(b, 0]` for
`b < 0`. -/
theorem C4_div_mod (a b : ℚ) :
    (b = 0 → div a b = none ∧ mod a b = none)
    ∧ (b ≠ 0 → div a b = some (a / b)
        ∧ mod a b = some (a - b * ⌊a / b⌋)
        ∧ (0 < b → 0 ≤ a - b * ⌊a / b⌋ ∧ a - b * ⌊a / b⌋ < b)
        ∧ (b < 0 → b < a - b * ⌊a / b⌋ ∧ a - b * ⌊a / b⌋ ≤ 0)) := by
  refine ⟨fun hb => by simp [div, mod, hb], fun hb => ?_⟩
  have hfr0 : (0 : ℚ) ≤ Int.fract (a / b) := Int.fract_nonneg _
  have hfr1 : Int.fract (a / b) < 1 := Int.fract_lt_one _
  refine ⟨by simp [div, hb], by simp [mod, hb], fun h0 => ?_, fun h0 => ?_⟩
  · rw [mod_eq_mul_fract hb]
    constructor
    · exact mul_nonneg h0.le hfr0
    · nlinarith
  · rw [mod_eq_mul_fract hb]
    constructor
    · nlinarith
    · exact mul_nonpos_iff.mpr (Or.inr ⟨h0.le, hfr0⟩)

/-- C4 witness: at `a = -7`, `b = 3` the amended theorem applies and gives
`div (-7) 3 = some (-7 / 3)` and `mod (-7) 3 = some 2`. -/
theorem C4_witness : div (-7) 3 = some (-7 / 3) ∧ mod (-7) 3 = some 2 := by
  have h := (C4_div_mod (-7) 3).2 (by norm_num)
  refine ⟨h.1, ?_⟩
  rw [h.2.1]
  with_unfolding_all decide

/-- C1 counterexample: applying the operator token `×` to buffer `"5"`
yields buffer `"5 × "` — the glyph is kept — not the claimed canonical
ASCII form `"5 * "`. -/
theorem C1_counterexample :
    (applyCmd noSci "×" ⟨"5", []⟩).display = "5 × "
    ∧ (applyCmd noSci "×" ⟨"5", []⟩).display ≠ "5 * " := by
  constructor <;> with_unfolding_all decide

/-- C1 (amended): a binary operator token applied to a buffer other than
`"0"` appends the space-padded token itself, keeping the glyphs `×` and `÷`
as typed; the canonical ASCII mapping `× → *`, `÷ → /` is applied by
`canon` only when the buffer is evaluated.  On buffer `"0"` the operator
token is a silent no-op. -/
theorem C1_operator (sci : SciOps) (cmd : String) (s : CalcState)
    (h : cmd = "+" ∨ cmd = "-" ∨ cmd = "*" ∨ cmd = "x" ∨ cmd = "×" ∨ cmd = "/" ∨ cmd = "÷") :
    (s.display ≠ "0" → applyCmd sci cmd s = { s with display := s.display ++ " " ++ cmd ++ " " })
    ∧ (s.display = "0" → applyCmd sci cmd s = s)
    ∧ canonChar '×' = '*' ∧ canonChar '÷' = '/' := by
  refine ⟨fun h0 => ?_, fun h0 => ?_, rfl, rfl⟩
  · rw [applyCmd_op sci cmd s h, if_pos h0]
  · rw [applyCmd_op sci cmd s h, if_neg (not_not_intro h0)]

/-- C1 witness: the `+` token appended to buffer `"5"`. -/
theorem C1_witness : applyCmd noSci "+" ⟨"5", []⟩ = ⟨"5 + ", []⟩ := by
  rw [(C1_operator noSci "+" ⟨"5", []⟩ (Or.inl rfl)).1 (by decide)]
  rfl

/-- C5 counterexample: the decimal-point token applied to buffer `"0"`
yields buffer `"."`, not the claimed `"0."`. -/
theorem C5_counterexample :
    (applyCmd noSci "." ⟨"0", []⟩).display = "." ∧ ("." : String) ≠ "0." := by
  constructor <;> decide

/-- C5 (amended): from buffer `"0"` the decimal-point token replaces the
buffer (the same replacement rule the digits use), giving `"."`; a second
`.` is a no-op; and in general `.` applied to a state whose buffer already
contains a decimal point leaves the state unchanged, so the decimal point
is accepted at most once across the whole buffer. -/
theorem C5_dot :
    applyCmd noSci "." ⟨"0", []⟩ = ⟨".", []⟩
    ∧ applyCmd noSci "." (applyCmd noSci "." ⟨"0", []⟩) = applyCmd noSci "." ⟨"0", []⟩
    ∧ ∀ (sci : SciOps) (s : CalcState), strContains s.display '.' → applyCmd sci "." s = s := by
  refine ⟨by decide, by decide, fun sci s h => ?_⟩
  show (if pyIsdigit "." ∨ ("." = "." ∧ ¬ strContains s.display '.') then
          (if s.display = "0" then { s with display := "." }
           else { s with display := s.display ++ "." })
        else s) = s
  rw [if_neg]
  rintro (hd | ⟨-, hc⟩)
  · exact absurd hd (by decide)
  · exact hc h

/-- C5 witness: `.` on a buffer already containing a decimal point. -/
theorem C5_witness : applyCmd noSci "." ⟨"0.5", []⟩ = ⟨"0.5", []⟩ :=
  C5_dot.2.2 noSci ⟨"0.5", []⟩ (by decide)

set_option maxRecDepth 8000 in
/-- C6 counterexample: at buffer `"0.03662109375"` (which evaluates to
`75 / 2048`) the percent token displays the unrounded `str(v / 100)`,
`"0.0003662109375"`, while the claimed 8-digit rounding would display
`"0.00036621"`. -/
theorem C6_counterexample :
    evalBuffer "0.03662109375" = some (75 / 2048)
    ∧ (applyCmd noSci "%" ⟨"0.03662109375", []⟩).display = "0.0003662109375"
    ∧ pyStr (round8Q ((75 : ℚ) / 2048 / 100)) = "0.00036621"
    ∧ ("0.0003662109375" : String) ≠ "0.00036621" := by
  refine ⟨?_, ?_, ?_, ?_⟩ <;> with_unfolding_all decide

/-- C6 (amended): the percent token evaluates the buffer and on success
replaces it with `str(v / 100)` directly — with no 8-digit rounding, unlike
the other function tokens — and on evaluation failure the buffer becomes
`"Error"`. -/
theorem C6_percent (sci : SciOps) (s : CalcState) :
    (∀ v : ℚ, evalBuffer s.display = some v →
      applyCmd sci "%" s = { s with display := pyStr (v / 100) })
    ∧ (evalBuffer s.display = none → applyCmd sci "%" s = { s with display := "Error" }) := by
  constructor
  · intro v hv
    show applyPct s = _
    unfold applyPct
    rw [hv]
  · intro hv
    show applyPct s = _
    unfold applyPct
    rw [hv]

/-- C6 witness: percent on buffer `"2"` displays `str(0.02) = "0.02"`. -/
theorem C6_witness : applyCmd noSci "%" ⟨"2", []⟩ = ⟨"0.02", []⟩ := by
  rw [(C6_percent noSci ⟨"2", []⟩).1 2 (by with_unfolding_all decide)]
  with_unfolding_all decide

/-- C8: the `DEL` token drops the last character of the buffer, except that
a buffer of length 1 resets to `"0"` instead of becoming empty; in
particular `DEL` on `"5"` and on `"0"` both give `"0"`, and `DEL` on
`"123"` gives `"12"`. -/
theorem C8_del :
    (∀ (sci : SciOps) (s : CalcState), applyCmd sci "DEL" s =
      { s with display :=
          if 1 < s.display.data.length then String.mk s.display.data.dropLast else "0" })
    ∧ applyCmd noSci "DEL" ⟨"5", []⟩ = ⟨"0", []⟩
    ∧ applyCmd noSci "DEL" ⟨"0", []⟩ = ⟨"0", []⟩
    ∧ applyCmd noSci "DEL" ⟨"123", ["9"]⟩ = ⟨"12", ["9"]⟩ :=
  ⟨fun _ _ => rfl, by decide, by decide, by decide⟩

/-- C3: when the buffer's evaluation fails, the `=` token (and every other
token that evaluates the buffer) sets the display to exactly `"Error"`
and leaves the history untouched — the engine absorbs every failure into
that sentinel and, being a total function, never raises to its caller.
Concretely, `=` on buffer `"5 / 0"` (division by zero) yields `"Error"`. -/
theorem C3_error (sci : SciOps) (s : CalcState) :
    (evalBuffer s.display = none →
      applyCmd sci "=" s = { s with display := "Error" }
      ∧ applyCmd sci "%" s = { s with display := "Error" }
      ∧ applyCmd sci "sin" s = { s with display := "Error" }
      ∧ applyCmd sci "cos" s = { s with display := "Error" }
      ∧ applyCmd sci "tan" s = { s with display := "Error" }
      ∧ applyCmd sci "log" s = { s with display := "Error" }
      ∧ applyCmd sci "ln" s = { s with display := "Error" }
      ∧ applyCmd sci "sqrt" s = { s with display := "Error" }
      ∧ applyCmd sci "x^2" s = { s with display := "Error" }
      ∧ applyCmd sci "x^3" s = { s with display := "Error" })
    ∧ applyCmd noSci "=" ⟨"5 / 0", []⟩ = ⟨"Error", []⟩
    ∧ evalBuffer "5 / 0" = none := by
  refine ⟨fun hv => ?_, by with_unfolding_all decide, by with_unfolding_all decide⟩
  refine ⟨?_, ?_, ?_, ?_, ?_, ?_, ?_, ?_, ?_, ?_⟩
  · show applyEq s = _
    unfold applyEq
    rw [hv]
  · show applyPct s = _
    unfold applyPct
    rw [hv]
  · show applyFn sci.sinQ s = _
    unfold applyFn
    rw [hv]
  · show applyFn sci.cosQ s = _
    unfold applyFn
    rw [hv]
  · show applyFn sci.tanQ s = _
    unfold applyFn
    rw [hv]
  · show applyFn sci.logQ s = _
    unfold applyFn
    rw [hv]
  · show applyFn sci.lnQ s = _
    unfold applyFn
    rw [hv]
  · show applyFn sci.sqrtQ s = _
    unfold applyFn
    rw [hv]
  · show applyPow 2 s = _
    unfold applyPow
    rw [hv]
  · show applyPow 3 s = _
    unfold applyPow
    rw [hv]

/-- C3 witness: `=` on the unbalanced buffer `"("` yields `"Error"`. -/
theorem C3_witness : applyCmd noSci "=" ⟨"(", []⟩ = ⟨"Error", []⟩ :=
  ((C3_error noSci ⟨"(", []⟩).1 (by with_unfolding_all decide)).1

/-- C2: the `=` token on a buffer that evaluates to `q` replaces the buffer
with `fmtEq q` and appends that string to the history; an integer-valued
result is printed as the bare integer string, which contains no decimal
point; a non-integer result is printed rounded to 8 decimal places; and
the keystrokes `4`, `+`, `4`, `=` from the initial state produce display
`"8"` (not `"8.0"`) with history `["8"]`. -/
theorem C2_equals (sci : SciOps) (s : CalcState) :
    (∀ q : ℚ, evalBuffer s.display = some q →
      applyCmd sci "=" s = { display := fmtEq q, history := s.history ++ [fmtEq q] }
      ∧ (q.den = 1 → fmtEq q = intStr q.num ∧ '.' ∉ (fmtEq q).data)
      ∧ (q.den ≠ 1 → fmtEq q = pyStr (round8Q q)))
    ∧ ["4", "+", "4", "="].foldl (fun t c => applyCmd noSci c t) initState = ⟨"8", ["8"]⟩ := by
  constructor
  · intro q hq
    refine ⟨?_, fun hden => ⟨?_, ?_⟩, fun hden => ?_⟩
    · show applyEq s = _
      unfold applyEq
      rw [hq]
    · unfold fmtEq
      rw [if_pos hden]
    · unfold fmtEq
      rw [if_pos hden]
      exact intStr_no_dot q.num
    · unfold fmtEq
      rw [if_neg hden]
  · with_unfolding_all decide

/-- C2 witness: `=` on buffer `"4 + 4"` gives display `"8"`, history `["8"]`. -/
theorem C2_witness : applyCmd noSci "=" ⟨"4 + 4", []⟩ = ⟨"8", ["8"]⟩ := by
  rw [((C2_equals noSci ⟨"4 + 4", []⟩).1 8 (by with_unfolding_all decide)).1]
  with_unfolding_all decide

set_option maxHeartbeats 2000000 in
/-- C9: the display buffer is never empty: every input line (digit, decimal
point, operator, function, constant, structural, `DEL`, clear, `=`, or
unrecognized) maps a state with a nonempty display to a state with a
nonempty display, for every oracle. -/
theorem C9_nonempty (sci : SciOps) (cmd : String) (s : CalcState)
    (h : s.display ≠ "") : (applyCmd sci cmd s).display ≠ "" := by
  unfold applyCmd
  by_cases h1 : cmd = ""
  · rw [if_pos h1]; exact h
  rw [if_neg h1]
  by_cases h2 : pyLower cmd = "exit" ∨ pyLower cmd = "quit"
  · rw [if_pos h2]; exact h
  rw [if_neg h2]
  by_cases h3 : pyLower cmd = "clear" ∨ pyLower cmd = "ac"
  · rw [if_pos h3]; exact (show ("0" : String) ≠ "" by decide)
  rw [if_neg h3]
  by_cases h4 : pyLower cmd = "help"
  · rw [if_pos h4]; exact h
  rw [if_neg h4]
  by_cases h5 : pyIsdigit cmd ∨ (cmd = "." ∧ ¬ strContains s.display '.')
  · rw [if_pos h5]
    have hcmd : cmd ≠ "" := h1
    by_cases h5a : s.display = "0"
    · rw [if_pos h5a]; exact hcmd
    · rw [if_neg h5a]; exact append_ne_empty_right hcmd
  rw [if_neg h5]
  by_cases h6 : cmd = "+" ∨ cmd = "-" ∨ cmd = "*" ∨ cmd = "x" ∨ cmd = "×" ∨ cmd = "/" ∨ cmd = "÷"
  · rw [if_pos h6]
    by_cases h6a : s.display ≠ "0"
    · rw [if_pos h6a]; exact append_ne_empty_right (by decide)
    · rw [if_neg h6a]; exact h
  rw [if_neg h6]
  by_cases h7 : pyLower cmd = "sin"
  · rw [if_pos h7]; exact applyFn_display_ne_empty _ _
  rw [if_neg h7]
  by_cases h8 : pyLower cmd = "cos"
  · rw [if_pos h8]; exact applyFn_display_ne_empty _ _
  rw [if_neg h8]
  by_cases h9 : pyLower cmd = "tan"
  · rw [if_pos h9]; exact applyFn_display_ne_empty _ _
  rw [if_neg h9]
  by_cases h10 : pyLower cmd = "log"
  · rw [if_pos h10]; exact applyFn_display_ne_empty _ _
  rw [if_neg h10]
  by_cases h11 : pyLower cmd = "ln"
  · rw [if_pos h11]; exact applyFn_display_ne_empty _ _
  rw [if_neg h11]
  by_cases h12 : pyLower cmd = "sqrt" ∨ cmd = "√"
  · rw [if_pos h12]; exact applyFn_display_ne_empty _ _
  rw [if_neg h12]
  by_cases h13 : cmd = "π"
  · rw [if_pos h13]; exact (show piStr ≠ "" by decide)
  rw [if_neg h13]
  by_cases h14 : pyLower cmd = "del"
  · rw [if_pos h14]
    by_cases h14a : 1 < s.display.data.length
    · rw [if_pos h14a]
      apply str_ne_empty
      intro hd
      have hd2 : s.display.data.dropLast = [] := hd
      have hlen := congrArg List.length hd2
      rw [List.length_dropLast] at hlen
      simp only [List.length_nil] at hlen
      omega
    · rw [if_neg h14a]; exact (show ("0" : String) ≠ "" by decide)
  rw [if_neg h14]
  by_cases h15 : cmd = "%"
  · rw [if_pos h15]; exact applyPct_display_ne_empty _
  rw [if_neg h15]
  by_cases h16 : cmd = "="
  · rw [if_pos h16]; exact applyEq_display_ne_empty _
  rw [if_neg h16]
  by_cases h17 : cmd = "("
  · rw [if_pos h17]
    by_cases h17a : s.display = "0"
    · rw [if_pos h17a]; exact (show ("(" : String) ≠ "" by decide)
    · rw [if_neg h17a]; exact append_ne_empty_right (by decide)
  rw [if_neg h17]
  by_cases h18 : cmd = ")"
  · rw [if_pos h18]; exact append_ne_empty_right (by decide)
  rw [if_neg h18]
  by_cases h19 : pyLower cmd = "x²" ∨ pyLower cmd = "x^2"
  · rw [if_pos h19]; exact applyPow_display_ne_empty _ _
  rw [if_neg h19]
  by_cases h20 : pyLower cmd = "x³" ∨ pyLower cmd = "x^3"
  · rw [if_pos h20]; exact applyPow_display_ne_empty _ _
  rw [if_neg h20]
  exact h

/-- C9 witness: from the initial state `"0"`, the `=` token keeps the
display nonempty. -/
theorem C9_witness : (applyCmd noSci "=" initState).display ≠ "" :=
  C9_nonempty noSci "=" initState (by decide)

theorem mem_dropWhile_x {l : List Char} (h : 'x' ∈ l) :
    'x' ∈ l.dropWhile isAsciiDigit := by
  rw [← List.takeWhile_append_dropWhile isAsciiDigit l] at h
  rcases List.mem_append.mp h with h1 | h1
  · exact absurd (List.mem_takeWhile_imp h1) (by decide)
  · exact h1

/-- The lexer rejects every input containing the letter `x`: no lexer rule
consumes it. -/
theorem lexChars_none_of_mem_x :
    ∀ (fuel : ℕ) (cs : List Char), 'x' ∈ cs → lexChars fuel cs = none := by
  intro fuel
  induction fuel with
  | zero => intro cs _; rfl
  | succ f ih =>
    intro cs hx
    cases cs with
    | nil => simp at hx
    | cons c cs' =>
      by_cases hcx : c = 'x'
      · subst hcx; rfl
      have hx' : 'x' ∈ cs' := by
        rcases List.mem_cons.mp hx with h1 | h1
        · exact absurd h1.symm hcx
        · exact h1
      show lexChars (f + 1) (c :: cs') = none
      unfold lexChars
      by_cases g1 : c = ' '
      · rw [if_pos g1]; exact ih cs' hx'
      rw [if_neg g1]
      by_cases g2 : c = '+'
      · rw [if_pos g2, ih cs' hx']; rfl
      rw [if_neg g2]
      by_cases g3 : c = '-'
      · rw [if_pos g3, ih cs' hx']; rfl
      rw [if_neg g3]
      by_cases g4 : c = '*'
      · rw [if_pos g4, ih cs' hx']; rfl
      rw [if_neg g4]
      by_cases g5 : c = '/'
      · rw [if_pos g5, ih cs' hx']; rfl
      rw [if_neg g5]
      by_cases g6 : c = '('
      · rw [if_pos g6, ih cs' hx']; rfl
      rw [if_neg g6]
      by_cases g7 : c = ')'
      · rw [if_pos g7, ih cs' hx']; rfl
      rw [if_neg g7]
      by_cases g8 : isAsciiDigit c = true ∨ c = '.'
      · rw [if_pos g8]
        have hxr1 : 'x' ∈ (c :: cs').dropWhile isAsciiDigit := mem_dropWhile_x hx
        by_cases hdot : ((c :: cs').dropWhile isAsciiDigit).headD ' ' = '.'
        · rw [if_pos hdot]
          have hxtail : 'x' ∈ ((c :: cs').dropWhile isAsciiDigit).tail := by
            cases hr : (c :: cs').dropWhile isAsciiDigit with
            | nil => rw [hr] at hxr1; simp at hxr1
            | cons d r2 =>
              rw [hr] at hxr1 hdot
              rcases List.mem_cons.mp hxr1 with h1 | h1
              · rw [List.headD_cons] at hdot
                rw [hdot] at h1
                exact absurd h1 (by decide)
              · rw [List.tail_cons]
                exact h1
          split
          · rfl
          · rw [ih _ (mem_dropWhile_x hxtail)]; rfl
        · rw [if_neg hdot]
          split
          · rfl
          · rw [ih _ hxr1]; rfl
      · rw [if_neg g8]

theorem mem_canon_x {d : String} (h : 'x' ∈ d.data) : 'x' ∈ (canon d).data :=
  List.mem_map.mpr ⟨'x', h, rfl⟩

theorem evalBuffer_none_of_mem_x {d : String} (h : 'x' ∈ d.data) :
    evalBuffer d = none := by
  unfold evalBuffer evalExpr lexStr
  rw [lexChars_none_of_mem_x _ _ (mem_canon_x h)]

theorem mem_x_middle (a b : String) : 'x' ∈ (a ++ " x " ++ b).data := by
  rw [String.data_append, String.data_append]
  exact List.mem_append.mpr (Or.inl (List.mem_append.mpr (Or.inr (by decide))))

theorem applyEq_of_none {s : CalcState} (h : evalBuffer s.display = none) :
    applyEq s = { s with display := "Error" } := by
  unfold applyEq
  rw [h]

/-- C10: the letter `x` is accepted as a binary operator token — on any
buffer other than `"0"` it appends `" x "` — but the pre-evaluation
substitution `canon` maps only the glyphs `×` and `÷`, leaving `x`
unchanged, so the evaluator rejects `x`: for every buffer formed by two
digit strings joined with `" x "`, the `=` token yields the buffer
`"Error"`. -/
theorem C10_x_operator (sci : SciOps) :
    (∀ s : CalcState, s.display ≠ "0" →
      applyCmd sci "x" s = { s with display := s.display ++ " " ++ "x" ++ " " })
    ∧ canonChar 'x' = 'x' ∧ canonChar '×' = '*' ∧ canonChar '÷' = '/'
    ∧ (∀ a b : String, pyIsdigit a → pyIsdigit b → ∀ hist : List String,
        evalBuffer (a ++ " x " ++ b) = none
        ∧ applyCmd sci "=" ⟨a ++ " x " ++ b, hist⟩ = ⟨"Error", hist⟩) := by
  refine ⟨fun s h0 => ?_, rfl, rfl, rfl, fun a b _ _ hist => ?_⟩
  · rw [applyCmd_op sci "x" s (Or.inr (Or.inr (Or.inr (Or.inl rfl)))), if_pos h0]
  · have hnone : evalBuffer (a ++ " x " ++ b) = none :=
      evalBuffer_none_of_mem_x (mem_x_middle a b)
    exact ⟨hnone, applyEq_of_none hnone⟩

/-- C10 witness: `=` on `"5 x 5"` yields `"Error"`. -/
theorem C10_witness :
    evalBuffer ("5" ++ " x " ++ "5") = none
    ∧ applyCmd noSci "=" ⟨"5" ++ " x " ++ "5", []⟩ = ⟨"Error", []⟩ :=
  (C10_x_operator noSci).2.2.2.2 "5" "5" (by decide) (by decide) []

theorem applyFn_of_some {f : ℚ → Option ℚ} {s : CalcState} {v r : ℚ}
    (hv : evalBuffer s.display = some v) (hf : f v = some r) :
    applyFn f s = { s with display := pyStr r } := by
  have h2 : applyFn f s =
      match f v with
      | some r => { s with display := pyStr r }
      | none => { s with display := "Error" } := by
    unfold applyFn
    rw [hv]
  rw [h2, hf]

theorem sqrt5_scaled_lb : (223606797 : ℝ) + 1 / 2 < Real.sqrt 5 * 10 ^ 8 := by
  have hlb : (2236067975 : ℝ) / 10 ^ 9 < Real.sqrt 5 :=
    (Real.lt_sqrt (by norm_num)).mpr (by norm_num)
  nlinarith

theorem sqrt5_scaled_ub : Real.sqrt 5 * 10 ^ 8 < 223606798 := by
  have hub : Real.sqrt 5 < (223606798 : ℝ) / 10 ^ 8 :=
    (Real.sqrt_lt' (by norm_num)).mpr (by norm_num)
  nlinarith

theorem floor_sqrt5_scaled : ⌊Real.sqrt 5 * 10 ^ 8⌋ = 223606797 :=
  Int.floor_eq_iff.mpr
    ⟨by have := sqrt5_scaled_lb; push_cast; linarith,
     by have := sqrt5_scaled_ub; push_cast; linarith⟩

theorem rheR_sqrt5 : rheR (Real.sqrt 5 * 10 ^ 8) = 223606798 := by
  have hfr : 1 / 2 < Int.fract (Real.sqrt 5 * 10 ^ 8) := by
    rw [Int.fract, floor_sqrt5_scaled]
    have := sqrt5_scaled_lb
    push_cast
    linarith
  unfold rheR
  rw [if_neg (by linarith), if_pos hfr, floor_sqrt5_scaled]
  norm_num

theorem round8R_sqrt5 : round8R (Real.sqrt 5) = 223606798 / 10 ^ 8 := by
  unfold round8R
  rw [rheR_sqrt5]
  norm_num

theorem sqrt4_eq_two : Real.sqrt 4 = 2 := by
  rw [show (4 : ℝ) = 2 ^ 2 by norm_num, Real.sqrt_sq (by norm_num)]

theorem round8R_sqrt4 : round8R (Real.sqrt 4) = 2 := by
  rw [sqrt4_eq_two]
  unfold round8R rheR
  rw [show (2 : ℝ) * 10 ^ 8 = ((200000000 : ℤ) : ℝ) by norm_num,
    Int.fract_intCast, Int.floor_intCast]
  rw [if_pos (by norm_num)]
  norm_num

/-- C7: from the initial buffer, the digit `5` followed by `sqrt` displays
`"2.23606798"` (√5 rounded to 8 decimal places); the function path keeps
the trailing `.0` on whole-number results (`sqrt` on `"4"` displays
`"2.0"`), while only the equals path prints integer-valued results without
a decimal point (`=` on `"4"` displays `"4"`). -/
theorem C7_sqrt :
    applyCmd realSci "5" initState = ⟨"5", []⟩
    ∧ (applyCmd realSci "sqrt" (applyCmd realSci "5" initState)).display = "2.23606798"
    ∧ (applyCmd realSci "sqrt" ⟨"4", []⟩).display = "2.0"
    ∧ (applyCmd realSci "=" ⟨"4", []⟩).display = "4" := by
  refine ⟨rfl, ?_, ?_, ?_⟩
  · have h1 : realSci.sqrtQ 5 = some (223606798 / 10 ^ 8) := by
      show (if (5 : ℚ) < 0 then none
            else some (round8R (Real.sqrt ((5 : ℚ) : ℝ)))) = _
      rw [if_neg (by norm_num), show ((5 : ℚ) : ℝ) = (5 : ℝ) by norm_num, round8R_sqrt5]
    show (applyFn realSci.sqrtQ ⟨"5", []⟩).display = _
    rw [applyFn_of_some (by with_unfolding_all decide) h1]
    with_unfolding_all decide
  · have h1 : realSci.sqrtQ 4 = some 2 := by
      show (if (4 : ℚ) < 0 then none
            else some (round8R (Real.sqrt ((4 : ℚ) : ℝ)))) = _
      rw [if_neg (by norm_num), show ((4 : ℚ) : ℝ) = (4 : ℝ) by norm_num, round8R_sqrt4]
    show (applyFn realSci.sqrtQ ⟨"4", []⟩).display = _
    rw [applyFn_of_some (by with_unfolding_all decide) h1]
    with_unfolding_all decide
  · show (applyEq ⟨"4", []⟩).display = "4"
    with_unfolding_all decide

end Calculator
